/-
Verification of the KNU-MM integrated surveillance controller.

Shallow embedding of the Python sources under integrated_system/ and
Detaction_CCTV/.  Wall-clock times and floating-point quantities are
modelled as rationals; each Python method that reads the clock receives
the current time as an explicit argument.  External effects (HTTP, ONVIF,
OpenCV, numpy trigonometry, the LLM call) are modelled as oracle inputs
where the control flow depends on their results.
-/
import Mathlib

namespace KnuMM

/-! ### PTZ priority arbitration
Embedding of integrated_system/modules/ptz_controller.py
(UnifiedPTZController).  PTZPriority is the IntEnum of that file;
comparisons between priorities are the numeric IntEnum comparisons. -/

inductive PTZPriority where
  | PATROL
  | MIC_DOA
  | YOLO_TRACKING
  | EMERGENCY
deriving DecidableEq, Repr

def PTZPriority.toNat : PTZPriority → Nat
  | .PATROL => 0
  | .MIC_DOA => 1
  | .YOLO_TRACKING => 2
  | .EMERGENCY => 3

/-- Mutable state of UnifiedPTZController guarded by its lock:
current priority, current owner, last accepted-move time. -/
structure PTZState where
  currentPriority : PTZPriority
  currentOwner : String
  lastMoveTime : ℚ
deriving DecidableEq, Repr

/-- One call to UnifiedPTZController.request_move: its arguments together
with the value of time.time() during the call. -/
structure PTZRequest where
  pan : ℚ
  tilt : ℚ
  priority : PTZPriority
  owner : String
  moveType : String
  zoom : ℚ
  now : ℚ
deriving DecidableEq, Repr

/-- UnifiedPTZController.request_move (ptz_controller.py lines 119-154):
reject when the request priority is below the stored priority and less
than 2 seconds have passed since the last accepted move; otherwise accept
and overwrite (priority, owner, last move time).  Returns the bool result
together with the state after the call. -/
def request_move (s : PTZState) (r : PTZRequest) : Bool × PTZState :=
  if r.priority.toNat < s.currentPriority.toNat ∧ r.now - s.lastMoveTime < 2 then
    (false, s)
  else
    (true, { currentPriority := r.priority, currentOwner := r.owner, lastMoveTime := r.now })

/-- Run a sequence of request_move calls and collect, for each accepted
request, the pair (request, state immediately before the call). -/
def acceptedTrace (s : PTZState) : List PTZRequest → List (PTZRequest × PTZState)
  | [] => []
  | r :: rest =>
    let step := request_move s r
    if step.1 then (r, s) :: acceptedTrace step.2 rest else acceptedTrace step.2 rest

/-! ### Microphone array DOA decisions
Embedding of integrated_system/modules/mic_array.py (MicArrayModule).
The circular mean and atan2 of _process_doa are computed by numpy from the
angle history; the derived quantities confidence and smooth_angle (and the
gain read from the device) enter the embedding as inputs, since the
decision logic of the claims consumes only those values. -/

/-- A PTZ action issued by a module through UnifiedPTZController. -/
inductive PtzAction where
  | request (pan tilt : ℚ) (priority : PTZPriority) (owner : String) (moveType : String)
  | stop
deriving DecidableEq, Repr

/-- MicArrayModule._get_sector: quantize an angle to a 30-degree sector,
int(((raw_angle + 15) // 30) * 30) % 360. -/
def get_sector (rawAngle : ℚ) : ℤ :=
  (⌊(rawAngle + 15) / 30⌋ * 30) % 360

/-- DOA decision thresholds of MicArrayModule.__init__ (defaults:
confidence_threshold 0.6, zenith_confidence 0.4, zenith_gain 10.0). -/
structure MicConfig where
  confidenceThreshold : ℚ
  zenithConfidence : ℚ
  zenithGain : ℚ
deriving DecidableEq, Repr

def micDefaultConfig : MicConfig :=
  { confidenceThreshold := 3/5, zenithConfidence := 2/5, zenithGain := 10 }

/-- An event emitted by MicArrayModule (topic, payload, event priority). -/
inductive MicEmit where
  | zenithDetected (confidence : ℚ)
  | doaDetected (sectorAngle : ℤ) (smoothAngle confidence : ℚ) (priority : Nat)
deriving DecidableEq, Repr

/-- MicArrayModule._process_doa (mic_array.py lines 170-207), which runs
only once at least 5 samples have accumulated: given the circular-mean
confidence, the device gain, the smoothed angle, and the last emitted
sector, produce the new last-sector state, the emitted events and the PTZ
requests.  hasPtz models whether self.ptz is set. -/
def process_doa (cfg : MicConfig) (hasPtz : Bool) (lastSector : ℤ)
    (confidence gain smoothAngle : ℚ) : ℤ × List MicEmit × List PtzAction :=
  if confidence < cfg.zenithConfidence ∧ gain < cfg.zenithGain then
    (lastSector, [MicEmit.zenithDetected confidence],
      if hasPtz then [PtzAction.request 0 (-90) .MIC_DOA "mic_array" "absolute"] else [])
  else if cfg.confidenceThreshold < confidence then
    let sector := get_sector smoothAngle
    if sector ≠ lastSector then
      (sector, [MicEmit.doaDetected sector smoothAngle confidence 1],
        if hasPtz then [PtzAction.request (sector : ℚ) (-15) .MIC_DOA "mic_array" "absolute"]
        else [])
    else (lastSector, [], [])
  else (lastSector, [], [])

/-! ### YOLO detection state machine and tracking control
Embedding of integrated_system/modules/yolo_detection.py
(YOLODetectionModule._pid_output and _decide_action together with the
state those methods read and write).  The module's name property is the
string "yolo"; it is the owner passed to every request_move call. -/

/-- A detection as consumed by _decide_action: its permanent id (from
re-identification) and its center point in pixels. -/
structure DetObj where
  permanentId : ℤ
  center : ℚ × ℚ
deriving DecidableEq, Repr

/-- YOLODetectionModule state touched by _decide_action: _tracked_target,
_last_event_time and _current_mode (a string such as "PATROL",
"SEARCHING" or "TRACKING (ID:3)"). -/
structure DetState where
  trackedTarget : Option DetObj
  lastEventTime : ℚ
  currentMode : String
deriving DecidableEq, Repr

/-- YOLODetectionModule.__init__ knobs used by the control laws
(defaults: pid_kp 0.4, dead_zone 50, patrol_speed 0.2,
PATROL_RETURN_DELAY 3.0). -/
structure DetConfig where
  pidKp : ℚ
  deadZone : ℚ
  patrolSpeed : ℚ
  patrolReturnDelay : ℚ
deriving DecidableEq, Repr

def detDefaultConfig : DetConfig :=
  { pidKp := 2/5, deadZone := 50, patrolSpeed := 1/5, patrolReturnDelay := 3 }

/-- YOLODetectionModule._pid_output (yolo_detection.py lines 247-257):
P-control velocities from the target center (tx, ty) against the frame
center (cx, cy), each clipped to [-1, 1]. -/
def pid_output (cfg : DetConfig) (tx ty : ℚ) (cx cy : ℤ) : ℚ × ℚ :=
  if cx = 0 ∨ cy = 0 then (0, 0)
  else
    let ex := tx - (cx : ℚ)
    let ey := ty - (cy : ℚ)
    let pan := if cfg.deadZone < |ex| then ex / (cx : ℚ) * cfg.pidKp else 0
    let tilt := if cfg.deadZone < |ey| then -(ey / (cy : ℚ)) * cfg.pidKp else 0
    (max (-1) (min 1 pan), max (-1) (min 1 tilt))

/-- The `self._current_mode.startswith("TRACKING")` test of
_decide_action (yolo_detection.py line 234).  Python str.startswith
compares the leading code points, modelled over the character list of
the mode string ("TRACKING" has 8 characters). -/
def modeIsTracking (m : String) : Bool :=
  m.data.take 8 == "TRACKING".data

/-- YOLODetectionModule._decide_action (yolo_detection.py lines 208-245)
followed by the `self._current_mode = mode` write of process (line 145):
given the priority-sorted detections and the frame center, pick the
target, update the state machine and issue the PTZ actions.  Returns
((mode string, target), new state, actions in order). -/
def decide_action (cfg : DetConfig) (hasPtz : Bool) (s : DetState)
    (sortedObjects : List DetObj) (cx cy : ℤ) (now : ℚ) :
    (String × Option DetObj) × DetState × List PtzAction :=
  match sortedObjects with
  | top :: rest =>
    let target :=
      match s.trackedTarget with
      | some t =>
        match (top :: rest).find? (fun o => o.permanentId == t.permanentId) with
        | some o => o
        | none => top
      | none => top
    let actions :=
      if hasPtz then
        let v := pid_output cfg target.center.1 target.center.2 cx cy
        [PtzAction.request v.1 v.2 .YOLO_TRACKING "yolo" "continuous"]
      else []
    let mode := "TRACKING (ID:" ++ toString target.permanentId ++ ")"
    ((mode, some target),
      { trackedTarget := some target, lastEventTime := now, currentMode := mode },
      actions)
  | [] =>
    if modeIsTracking s.currentMode then
      (("SEARCHING", none),
        { s with trackedTarget := none, currentMode := "SEARCHING" },
        if hasPtz then [PtzAction.stop] else [])
    else if cfg.patrolReturnDelay < now - s.lastEventTime then
      (("PATROL", none),
        { s with currentMode := "PATROL" },
        if hasPtz then [PtzAction.request cfg.patrolSpeed 0 .PATROL "yolo" "continuous"]
        else [])
    else ((s.currentMode, none), s, [])

/-! ### Re-identification manager
Embedding of Detaction_CCTV/services/reid_manager.py (ReIDManager).
Python dicts are modelled as association lists in insertion order (the
iteration order of the re-identification search).  The appearance
fingerprint (a normalized Hue-Saturation histogram computed by OpenCV
from the cropped box) is modelled as an abstract rational value, and
cv2.compareHist with HISTCMP_CORREL as the oracle function corr on those
values; an object whose clamped box has zero area (skipped by
update_ids) carries hist = none. -/

/-- An object handed to ReIDManager.update_ids: its ephemeral YOLO
tracker id and the fingerprint of its crop (none when the crop is
invalid and the object is skipped). -/
structure TrackedObj where
  yoloId : ℤ
  hist : Option ℚ
deriving DecidableEq, Repr

/-- Association-list lookup with the leftmost binding winning, the
behaviour of a Python dict read when keys are unique. -/
def alookup {α : Type} : List (ℤ × α) → ℤ → Option α
  | [], _ => none
  | e :: t, q => if e.1 = q then some e.2 else alookup t q

/-- Overwrite the stored fingerprint of a permanent id
(self.known_objects[perm_id] assignment: replacement, not averaging). -/
def setHist (ko : List (ℤ × ℚ)) (p : ℤ) (h : ℚ) : List (ℤ × ℚ) :=
  ko.map (fun q => if q.1 = p then (q.1, h) else q)

/-- ReIDManager state: known_objects (permanent id to fingerprint, in
insertion order), id_map (tracker id to permanent id), next_uid and the
similarity threshold (0.75 at the construction site in
yolo_detection.py). -/
structure ReIDState where
  knownObjects : List (ℤ × ℚ)
  idMap : List (ℤ × ℤ)
  nextUid : ℤ
  threshold : ℚ
deriving DecidableEq, Repr

def mappedPerms (m : List (ℤ × ℤ)) : List ℤ := m.map Prod.snd

/-- The re-identification search of update_ids (reid_manager.py lines
69-83): iterate over known_objects in order, skip permanent ids that are
currently mapped to an active tracker id, and keep the strictly best
correlation score, starting from (best_score, matched_perm_id) =
(-1, -1). -/
def bestMatch (corr : ℚ → ℚ → ℚ) (s : ReIDState) (h : ℚ) : ℚ × ℤ :=
  s.knownObjects.foldl
    (fun acc q =>
      if q.1 ∈ mappedPerms s.idMap then acc
      else if acc.1 < corr q.2 h then (corr q.2 h, q.1) else acc)
    (-1, -1)

/-- Processing of a single object inside ReIDManager.update_ids: returns
the updated state and the permanent id given to the object (none when the
object was skipped for an invalid crop). -/
def reidStep (corr : ℚ → ℚ → ℚ) (s : ReIDState) (o : TrackedObj) :
    ReIDState × Option ℤ :=
  match o.hist with
  | none => (s, none)
  | some h =>
    match alookup s.idMap o.yoloId with
    | some p => ({ s with knownObjects := setHist s.knownObjects p h }, some p)
    | none =>
      let b := bestMatch corr s h
      if s.threshold < b.1 then
        ({ s with idMap := s.idMap ++ [(o.yoloId, b.2)],
                  knownObjects := setHist s.knownObjects b.2 h }, some b.2)
      else
        ({ s with idMap := s.idMap ++ [(o.yoloId, s.nextUid)],
                  knownObjects := s.knownObjects ++ [(s.nextUid, h)],
                  nextUid := s.nextUid + 1 }, some s.nextUid)

/-- One iteration of the for-loop of update_ids: run reidStep and append
the processed object to the frame's output list. -/
def reidFoldStep (corr : ℚ → ℚ → ℚ) (acc : ReIDState × List (TrackedObj × ℤ))
    (o : TrackedObj) : ReIDState × List (TrackedObj × ℤ) :=
  let step := reidStep corr acc.1 o
  (step.1, match step.2 with
    | some p => acc.2 ++ [(o, p)]
    | none => acc.2)

/-- ReIDManager.update_ids (reid_manager.py lines 28-116): process the
objects in order, then evict id_map entries whose tracker id was not seen
this frame (tracker ids are collected before the invalid-crop skip, so a
skipped object still counts as seen).  Returns the final state and the
(object, permanent id) assignments of the frame. -/
def update_ids (corr : ℚ → ℚ → ℚ) (s : ReIDState) (objs : List TrackedObj) :
    ReIDState × List (TrackedObj × ℤ) :=
  let run := objs.foldl (reidFoldStep corr) (s, [])
  let seen := objs.map TrackedObj.yoloId
  ({ run.1 with idMap := run.1.idMap.filter (fun q => seen.contains q.1) }, run.2)

/-- The data invariant of ReIDManager: tracker keys are unique, the map
to permanent ids is injective, every issued permanent id is below
next_uid, known_objects keys are unique and below next_uid, and the
similarity threshold is at least the search's initial best score -1. -/
def ReIDInv (s : ReIDState) : Prop :=
  (s.idMap.map Prod.fst).Nodup ∧
  (s.idMap.map Prod.snd).Nodup ∧
  (∀ p ∈ s.idMap.map Prod.snd, p < s.nextUid) ∧
  (s.knownObjects.map Prod.fst).Nodup ∧
  (∀ p ∈ s.knownObjects.map Prod.fst, p < s.nextUid) ∧
  (-1 : ℚ) ≤ s.threshold

/-! ### Context LLM module
Embedding of integrated_system/modules/context_llm.py (ContextLLMModule).
The external multimodal LLM call (_analyze_multimodal) is an oracle
input: some a when it returns a success result with analysis a, none when
it fails (returns None, a non-success result, or swallows an exception).
`systemReady` models self._system being non-None, `hasFrame` models
shared_data["frame"] being non-None. -/

/-- Fields of the LLM analysis dict that the module reads. -/
structure Analysis where
  priority : String
  isEmergency : Bool
  situationType : String
  urgency : String
  summary : String
deriving DecidableEq, Repr

/-- The display dict built on a successful analysis. -/
structure DisplayResult where
  priority : String
  isEmergency : Bool
  situation : String
  urgency : String
  speechText : String
  hasPerson : Bool
  timestamp : ℚ
  summary : String
deriving DecidableEq, Repr

/-- ContextLLMModule state: _last_analysis_time, _last_result (none for
the initial empty dict), the single-slot pending STT text with its
arrival time, and _display_result. -/
structure LLMState where
  lastAnalysisTime : ℚ
  lastResult : Option Analysis
  pendingText : Option String
  pendingTextTime : ℚ
  displayResult : Option DisplayResult
deriving DecidableEq, Repr

def initialLLMState : LLMState :=
  { lastAnalysisTime := 0, lastResult := none, pendingText := none,
    pendingTextTime := 0, displayResult := none }

/-- An event published on the bus by ContextLLMModule. -/
structure LLMEvent where
  topic : String
  priority : Nat
deriving DecidableEq, Repr

/-- The dict returned by ContextLLMModule.process, by reason. -/
inductive ProcResult where
  | notReady
  | cooldown (lastResult : Option Analysis) (displayResult : Option DisplayResult)
  | noFrame
  | noSpeech (displayResult : Option DisplayResult)
  | analysisFailed
  | ok (priority : String) (isEmergency : Bool) (situationType : String)
      (urgency : String) (speechText : String)
deriving DecidableEq, Repr

def ProcResult.isAnalyzed : ProcResult → Bool
  | .ok _ _ _ _ _ => true
  | _ => false

/-- Everything one call to ContextLLMModule.process produces: the return
dict, the state after the call, the events emitted during the call, and
whether the LLM analysis was invoked. -/
structure LLMOutcome where
  result : ProcResult
  state : LLMState
  emits : List LLMEvent
  llmInvoked : Bool
deriving DecidableEq, Repr

def ANALYSIS_COOLDOWN : ℚ := 5

/-- Is a fresh pending utterance present at time `now`: a non-empty
pending text recorded less than 30 seconds earlier (the truthiness test
plus age check of context_llm.py line 226). -/
def freshPending (s : LLMState) (now : ℚ) : Bool :=
  match s.pendingText with
  | some t => ¬t.isEmpty ∧ now - s.pendingTextTime < 30
  | none => false

/-- ContextLLMModule.process (context_llm.py lines 195-300).  Checks in
source order: system ready, cooldown, frame, consume the pending text
when fresh, then analyze.  On a successful analysis, record it, update
the display result and emit llm.analysis_complete (plus llm.emergency at
priority 2 when flagged); the pending slot was already cleared and
_last_analysis_time already set before the analysis call, so a failure
keeps both. -/
def llmProcess (s : LLMState) (systemReady hasFrame hasPerson : Bool)
    (llm : Option Analysis) (now : ℚ) : LLMOutcome :=
  if ¬systemReady then
    { result := .notReady, state := s, emits := [], llmInvoked := false }
  else if now - s.lastAnalysisTime < ANALYSIS_COOLDOWN then
    { result := .cooldown s.lastResult s.displayResult, state := s,
      emits := [], llmInvoked := false }
  else if ¬hasFrame then
    { result := .noFrame, state := s, emits := [], llmInvoked := false }
  else if freshPending s now then
    let speechText := s.pendingText.getD ""
    let s1 := { s with pendingText := none, lastAnalysisTime := now }
    match llm with
    | some a =>
      let display : DisplayResult :=
        { priority := a.priority, isEmergency := a.isEmergency,
          situation := a.situationType, urgency := a.urgency,
          speechText := speechText, hasPerson := hasPerson,
          timestamp := now, summary := a.summary }
      { result := .ok a.priority a.isEmergency a.situationType a.urgency speechText,
        state := { s1 with lastResult := some a, displayResult := some display },
        emits := { topic := "llm.analysis_complete", priority := 0 } ::
          (if a.isEmergency then [{ topic := "llm.emergency", priority := 2 }] else []),
        llmInvoked := true }
    | none =>
      { result := .analysisFailed, state := s1, emits := [], llmInvoked := true }
  else
    { result := .noSpeech s.displayResult, state := s, emits := [], llmInvoked := false }

/-- One externally visible interaction with ContextLLMModule: either the
stt.text_recognized handler _on_stt_text firing, or a pipeline call to
process. -/
inductive LLMCall where
  | stt (text : String) (now : ℚ)
  | procCall (systemReady hasFrame hasPerson : Bool) (llm : Option Analysis) (now : ℚ)
deriving DecidableEq, Repr

def LLMCall.time : LLMCall → ℚ
  | .stt _ now => now
  | .procCall _ _ _ _ now => now

/-- ContextLLMModule._on_stt_text (lines 180-191): store a non-empty
text with its arrival time in the single pending slot. -/
def on_stt_text (s : LLMState) (text : String) (now : ℚ) : LLMState :=
  if ¬text.isEmpty then { s with pendingText := some text, pendingTextTime := now }
  else s

def llmStep (s : LLMState) : LLMCall → LLMState × List LLMEvent
  | .stt t now => (on_stt_text s t now, [])
  | .procCall ready hf hp llm now =>
    let o := llmProcess s ready hf hp llm now
    (o.state, o.emits)

/-- The times of the calls in a run at which llm.analysis_complete was
emitted. -/
def llmEmitTimes (s : LLMState) : List LLMCall → List ℚ
  | [] => []
  | c :: rest =>
    let step := llmStep s c
    if step.2.any (fun e => e.topic == "llm.analysis_complete") then
      c.time :: llmEmitTimes step.1 rest
    else llmEmitTimes step.1 rest

/-! ### Server reporter
Embedding of integrated_system/modules/server_reporter.py
(ServerReporterModule).  Each subscribed event handler builds a payload
and calls _send_to_server, which POSTs whenever the module is enabled and
a server URL is configured; `httpOk` is the oracle for the HTTP outcome
(status 200).  There is no timing state anywhere in the module. -/

/-- An event as delivered to the reporter: topic, delivery time and the
HTTP outcome its POST would have. -/
structure REvent where
  topic : String
  time : ℚ
  httpOk : Bool
deriving DecidableEq, Repr

/-- An outgoing HTTP POST of the reporter. -/
structure Post where
  topic : String
  time : ℚ
deriving DecidableEq, Repr

structure ReporterState where
  sendCount : Nat
  failCount : Nat
deriving DecidableEq, Repr

/-- The four topics subscribed in ServerReporterModule initialization
(server_reporter.py lines 69-72). -/
def reporterTopics : List String :=
  ["llm.emergency", "llm.analysis_complete", "yolo.person_detected", "mic.doa_detected"]

/-- Delivery of one event to ServerReporterModule: a subscribed topic
triggers _send_to_server (lines 130-155) immediately; no per-topic
interval is consulted anywhere. -/
def reporterHandle (enabled : Bool) (url : String) (s : ReporterState) (e : REvent) :
    ReporterState × List Post :=
  if reporterTopics.contains e.topic then
    if enabled ∧ ¬url.isEmpty then
      if e.httpOk then
        ({ s with sendCount := s.sendCount + 1 }, [{ topic := e.topic, time := e.time }])
      else
        ({ s with failCount := s.failCount + 1 }, [{ topic := e.topic, time := e.time }])
    else (s, [])
  else (s, [])

/-- Deliver a sequence of events and collect all outgoing POSTs. -/
def reporterRun (enabled : Bool) (url : String) (s : ReporterState) :
    List REvent → ReporterState × List Post
  | [] => (s, [])
  | e :: rest =>
    let step := reporterHandle enabled url s e
    let tail := reporterRun enabled url step.1 rest
    (tail.1, step.2 ++ tail.2)

/-! ## Helper lemmas -/

theorem request_move_true_iff (s : PTZState) (r : PTZRequest) :
    (request_move s r).1 = true ↔
      s.currentPriority.toNat ≤ r.priority.toNat ∨ 2 ≤ r.now - s.lastMoveTime := by
  unfold request_move
  split_ifs with h
  · simp only [Bool.false_eq_true, false_iff]
    push_neg
    exact ⟨by omega, by linarith [h.2]⟩
  · simp only [true_iff]
    rcases not_and_or.1 h with h1 | h2
    · exact Or.inl (by omega)
    · exact Or.inr (by linarith [not_lt.1 h2])

theorem request_move_state_true (s : PTZState) (r : PTZRequest)
    (h : (request_move s r).1 = true) :
    (request_move s r).2 =
      { currentPriority := r.priority, currentOwner := r.owner, lastMoveTime := r.now } := by
  unfold request_move at h ⊢
  split_ifs at h ⊢ with hc
  rfl

theorem request_move_state_false (s : PTZState) (r : PTZRequest)
    (h : (request_move s r).1 = false) :
    (request_move s r).2 = s := by
  unfold request_move at h ⊢
  split_ifs at h ⊢ with hc
  rfl

theorem acceptedTrace_head_pre (reqs : List PTZRequest) :
    ∀ (s : PTZState) (x : PTZRequest × PTZState) (tail : List (PTZRequest × PTZState)),
      acceptedTrace s reqs = x :: tail → x.2 = s := by
  induction reqs with
  | nil => intro s x tail h; simp [acceptedTrace] at h
  | cons r rest ih =>
    intro s x tail h
    simp only [acceptedTrace] at h
    by_cases hb : (request_move s r).1 = true
    · rw [if_pos hb] at h
      injection h with h1 h2
      rw [← h1]
    · rw [if_neg hb] at h
      have hst := request_move_state_false s r (by
        cases hbv : (request_move s r).1
        · rfl
        · exact absurd hbv hb)
      rw [hst] at h
      exact ih s x tail h

theorem acceptedTrace_mem_accepted (reqs : List PTZRequest) :
    ∀ (s : PTZState) (x : PTZRequest × PTZState),
      x ∈ acceptedTrace s reqs → (request_move x.2 x.1).1 = true := by
  induction reqs with
  | nil => intro s x h; simp [acceptedTrace] at h
  | cons r rest ih =>
    intro s x h
    simp only [acceptedTrace] at h
    by_cases hb : (request_move s r).1 = true
    · rw [if_pos hb] at h
      rcases List.mem_cons.1 h with h1 | h2
      · rw [h1]; exact hb
      · exact ih _ x h2
    · rw [if_neg hb] at h
      exact ih _ x h

theorem acceptedTrace_chain (reqs : List PTZRequest) :
    ∀ s : PTZState,
      (acceptedTrace s reqs).Chain' (fun a b =>
        a.1.priority.toNat ≤ b.1.priority.toNat ∨ 2 ≤ b.1.now - a.1.now) := by
  induction reqs with
  | nil => intro s; simp [acceptedTrace]
  | cons r rest ih =>
    intro s
    simp only [acceptedTrace]
    by_cases hb : (request_move s r).1 = true
    · rw [if_pos hb]
      rw [List.chain'_cons']
      refine ⟨?_, ih _⟩
      intro y hy
      have hupd := request_move_state_true s r hb
      rcases hhd : acceptedTrace (request_move s r).2 rest with _ | ⟨z, tl⟩
      · rw [hhd] at hy; simp at hy
      · rw [hhd] at hy
        simp only [List.head?_cons, Option.mem_def, Option.some.injEq] at hy
        have hz2 : z.2 = (request_move s r).2 :=
          acceptedTrace_head_pre rest (request_move s r).2 z tl hhd
        have hzin : z ∈ acceptedTrace (request_move s r).2 rest := by
          rw [hhd]; exact List.mem_cons_self z tl
        have hacc := acceptedTrace_mem_accepted rest (request_move s r).2 z hzin
        have := (request_move_true_iff z.2 z.1).1 hacc
        rw [hz2, hupd] at this
        rw [← hy]
        exact this
    · rw [if_neg hb]
      exact ih _

theorem modeIsTracking_tracking (t : String) :
    modeIsTracking ("TRACKING (ID:" ++ t ++ ")") = true := by
  unfold modeIsTracking
  rw [String.data_append, String.data_append, List.append_assoc,
    List.take_append_of_le_length
      (by decide : 8 ≤ ("TRACKING (ID:" : String).data.length)]
  decide

/-! ## Claim theorems -/

/-- C1: PTZ arbitration rule.  A request_move call is accepted iff its
priority is at least the stored priority or at least 2 seconds have
elapsed since the last accepted request; on accept the stored state
becomes (request priority, request owner, now); on reject the stored
state is unchanged; and over any sequence of requests each accepted
request either has priority at least that of the previous accepted
request or arrives at least 2 seconds after it. -/
theorem ptz_arbitration :
    (∀ (s : PTZState) (r : PTZRequest),
      (request_move s r).1 = true ↔
        s.currentPriority.toNat ≤ r.priority.toNat ∨ 2 ≤ r.now - s.lastMoveTime) ∧
    (∀ (s : PTZState) (r : PTZRequest), (request_move s r).1 = true →
      (request_move s r).2 =
        { currentPriority := r.priority, currentOwner := r.owner, lastMoveTime := r.now }) ∧
    (∀ (s : PTZState) (r : PTZRequest), (request_move s r).1 = false →
      (request_move s r).2 = s) ∧
    (∀ (s : PTZState) (reqs : List PTZRequest),
      (acceptedTrace s reqs).Chain' (fun a b =>
        a.1.priority.toNat ≤ b.1.priority.toNat ∨ 2 ≤ b.1.now - a.1.now)) :=
  ⟨request_move_true_iff, request_move_state_true, request_move_state_false,
   fun s reqs => acceptedTrace_chain reqs s⟩

/-- Witness for C1 at concrete inputs: a PATROL request 1 second after a
YOLO_TRACKING acceptance is rejected and leaves the state unchanged,
while the same request 3 seconds later is accepted and overwrites the
state. -/
theorem ptz_arbitration_witness :
    (request_move
        { currentPriority := .YOLO_TRACKING, currentOwner := "yolo", lastMoveTime := 10 }
        { pan := 1/5, tilt := 0, priority := .PATROL, owner := "yolo",
          moveType := "continuous", zoom := 0, now := 11 }).2 =
      { currentPriority := .YOLO_TRACKING, currentOwner := "yolo", lastMoveTime := 10 } ∧
    (request_move
        { currentPriority := .YOLO_TRACKING, currentOwner := "yolo", lastMoveTime := 10 }
        { pan := 1/5, tilt := 0, priority := .PATROL, owner := "yolo",
          moveType := "continuous", zoom := 0, now := 13 }).2 =
      { currentPriority := .PATROL, currentOwner := "yolo", lastMoveTime := 13 } :=
  ⟨ptz_arbitration.2.2.1
      { currentPriority := .YOLO_TRACKING, currentOwner := "yolo", lastMoveTime := 10 }
      { pan := 1/5, tilt := 0, priority := .PATROL, owner := "yolo",
        moveType := "continuous", zoom := 0, now := 11 }
      (by norm_num [request_move, PTZPriority.toNat]),
   ptz_arbitration.2.1
      { currentPriority := .YOLO_TRACKING, currentOwner := "yolo", lastMoveTime := 10 }
      { pan := 1/5, tilt := 0, priority := .PATROL, owner := "yolo",
        moveType := "continuous", zoom := 0, now := 13 }
      (by norm_num [request_move, PTZPriority.toNat])⟩

/-- C9: DOA sector quantization.  For raw angles in [0, 360) the sector
function computes floor((angle+15)/30)*30 mod 360, the result is one of
the multiples of 30 in {0, ..., 330}, and the function is idempotent. -/
theorem doa_sector_quantization (θ : ℚ) (h0 : 0 ≤ θ) (h1 : θ < 360) :
    get_sector θ = (⌊(θ + 15) / 30⌋ * 30) % 360 ∧
    (∃ k : ℤ, 0 ≤ k ∧ k ≤ 11 ∧ get_sector θ = 30 * k) ∧
    get_sector ((get_sector θ : ℚ)) = get_sector θ := by
  have hm0 : (0 : ℤ) ≤ ⌊(θ + 15) / 30⌋ := by
    apply Int.le_floor.2
    norm_num
    linarith
  have hm1 : ⌊(θ + 15) / 30⌋ < 13 := by
    apply Int.floor_lt.2
    norm_num
    linarith
  have hg : get_sector θ = (⌊(θ + 15) / 30⌋ * 30) % 360 := rfl
  refine ⟨rfl, ⟨(⌊(θ + 15) / 30⌋ * 30) % 360 / 30, by omega, by omega, by rw [hg]; omega⟩, ?_⟩
  rw [hg]
  have hv0 : 0 ≤ (⌊(θ + 15) / 30⌋ * 30) % 360 := by omega
  have hv1 : (⌊(θ + 15) / 30⌋ * 30) % 360 < 360 := by omega
  have hdvd : (⌊(θ + 15) / 30⌋ * 30) % 360 = 30 * ((⌊(θ + 15) / 30⌋ * 30) % 360 / 30) := by
    omega
  set v : ℤ := (⌊(θ + 15) / 30⌋ * 30) % 360 with hvdef
  have hvq : (v : ℚ) = 30 * (((v / 30 : ℤ)) : ℚ) := by
    exact_mod_cast congrArg (fun z : ℤ => (z : ℚ)) hdvd
  have hfloor : ⌊((v : ℚ) + 15) / 30⌋ = v / 30 := by
    apply Int.floor_eq_iff.2
    constructor
    · rw [hvq]; linarith
    · rw [hvq]; linarith
  show (⌊((v : ℚ) + 15) / 30⌋ * 30) % 360 = v
  rw [hfloor]
  omega

/-- Witness for C9 at the concrete angle 95: sector 90, a multiple of 30,
stable under re-quantization. -/
theorem doa_sector_quantization_witness :
    (0 : ℚ) ≤ 95 ∧ (95 : ℚ) < 360 ∧
    (get_sector 95 = (⌊((95 : ℚ) + 15) / 30⌋ * 30) % 360 ∧
     (∃ k : ℤ, 0 ≤ k ∧ k ≤ 11 ∧ get_sector 95 = 30 * k) ∧
     get_sector ((get_sector 95 : ℚ)) = get_sector 95) :=
  ⟨by norm_num, by norm_num, doa_sector_quantization 95 (by norm_num) (by norm_num)⟩

/-- C8: microphone DOA decision rules at the default thresholds
(zenith_confidence 0.4, zenith_gain 10.0, confidence_threshold 0.6):
low confidence with low gain yields the zenith event and an absolute move
(0, -90) at MIC_DOA; otherwise, high confidence with a changed 30-degree
sector publishes mic.doa_detected at priority 1 and requests an absolute
move (sector, -15) at MIC_DOA; in every other case nothing is emitted and
no move is requested and the stored sector is unchanged. -/
theorem mic_doa_decision :
    (∀ (hasPtz : Bool) (ls : ℤ) (conf gain sm : ℚ),
      conf < 2/5 → gain < 10 →
      process_doa micDefaultConfig hasPtz ls conf gain sm =
        (ls, [MicEmit.zenithDetected conf],
         if hasPtz then [PtzAction.request 0 (-90) .MIC_DOA "mic_array" "absolute"]
         else [])) ∧
    (∀ (hasPtz : Bool) (ls : ℤ) (conf gain sm : ℚ),
      ¬(conf < 2/5 ∧ gain < 10) → 3/5 < conf → get_sector sm ≠ ls →
      process_doa micDefaultConfig hasPtz ls conf gain sm =
        (get_sector sm, [MicEmit.doaDetected (get_sector sm) sm conf 1],
         if hasPtz then
           [PtzAction.request ((get_sector sm : ℤ) : ℚ) (-15) .MIC_DOA "mic_array" "absolute"]
         else [])) ∧
    (∀ (hasPtz : Bool) (ls : ℤ) (conf gain sm : ℚ),
      ¬(conf < 2/5 ∧ gain < 10) → ¬(3/5 < conf ∧ get_sector sm ≠ ls) →
      process_doa micDefaultConfig hasPtz ls conf gain sm = (ls, [], [])) := by
  refine ⟨?_, ?_, ?_⟩
  · intro hasPtz ls conf gain sm h1 h2
    simp only [process_doa, micDefaultConfig]
    rw [if_pos ⟨h1, h2⟩]
  · intro hasPtz ls conf gain sm h1 h2 h3
    simp only [process_doa, micDefaultConfig]
    rw [if_neg h1, if_pos h2, if_pos h3]
  · intro hasPtz ls conf gain sm h1 h2
    simp only [process_doa, micDefaultConfig]
    rw [if_neg h1]
    by_cases hc : (3 : ℚ)/5 < conf
    · rw [if_pos hc, if_neg (fun hne => h2 ⟨hc, hne⟩)]
    · rw [if_neg hc]

/-- Witness for C8: a zenith step (confidence 0.2, gain 6), a directional
step (confidence 0.8, smooth angle 95, last sector -1, new sector 90),
and an unchanged-sector step (last sector already 90) that does nothing. -/
theorem mic_doa_decision_witness :
    process_doa micDefaultConfig true (-1) (1/5) 6 0 =
      (-1, [MicEmit.zenithDetected (1/5)],
       [PtzAction.request 0 (-90) .MIC_DOA "mic_array" "absolute"]) ∧
    process_doa micDefaultConfig true (-1) (4/5) 20 95 =
      (get_sector 95, [MicEmit.doaDetected (get_sector 95) 95 (4/5) 1],
       [PtzAction.request ((get_sector 95 : ℤ) : ℚ) (-15) .MIC_DOA "mic_array" "absolute"]) ∧
    process_doa micDefaultConfig true 90 (4/5) 20 95 = (90, [], []) := by
  have hs : get_sector 95 = 90 := by
    unfold get_sector
    norm_num
  refine ⟨?_, ?_, ?_⟩
  · have := mic_doa_decision.1 true (-1) (1/5) 6 0 (by norm_num) (by norm_num)
    simpa using this
  · have := mic_doa_decision.2.1 true (-1) (4/5) 20 95 (by norm_num) (by norm_num)
      (by rw [hs]; norm_num)
    simpa using this
  · have := mic_doa_decision.2.2 true 90 (4/5) 20 95 (by norm_num)
      (by rw [not_and_or, hs]; right; simp)
    simpa using this

/-- C5 (amended): detection state transitions.  From a TRACKING mode with
no detections this tick the mode becomes SEARCHING, the target is cleared
and the camera is stopped; from a non-tracking mode with no detections
for strictly more than patrol_return_delay seconds the mode becomes
PATROL and a continuous pan at patrol_speed is requested at priority
PATROL with owner yolo; whenever at least one object is detected the mode
becomes a TRACKING mode.  (The claim's "at least patrol_return_delay
seconds" is corrected to "strictly more": the code compares with >.) -/
theorem detection_state_transitions :
    (∀ (cfg : DetConfig) (hasPtz : Bool) (s : DetState) (cx cy : ℤ) (now : ℚ),
      modeIsTracking s.currentMode = true →
      decide_action cfg hasPtz s [] cx cy now =
        (("SEARCHING", none),
         { s with trackedTarget := none, currentMode := "SEARCHING" },
         if hasPtz then [PtzAction.stop] else [])) ∧
    (∀ (cfg : DetConfig) (hasPtz : Bool) (s : DetState) (cx cy : ℤ) (now : ℚ),
      modeIsTracking s.currentMode = false →
      cfg.patrolReturnDelay < now - s.lastEventTime →
      decide_action cfg hasPtz s [] cx cy now =
        (("PATROL", none), { s with currentMode := "PATROL" },
         if hasPtz then [PtzAction.request cfg.patrolSpeed 0 .PATROL "yolo" "continuous"]
         else [])) ∧
    (∀ (cfg : DetConfig) (hasPtz : Bool) (s : DetState) (objs : List DetObj) (cx cy : ℤ)
      (now : ℚ), objs ≠ [] →
      modeIsTracking (decide_action cfg hasPtz s objs cx cy now).2.1.currentMode = true) := by
  refine ⟨?_, ?_, ?_⟩
  · intro cfg hasPtz s cx cy now h
    simp only [decide_action]
    rw [if_pos h]
  · intro cfg hasPtz s cx cy now h1 h2
    simp only [decide_action]
    rw [if_neg (by rw [h1]; exact Bool.false_ne_true), if_pos h2]
  · intro cfg hasPtz s objs cx cy now h
    match objs with
    | top :: rest =>
      simp only [decide_action]
      exact modeIsTracking_tracking _

/-- Witness for C5 at concrete inputs: a tracking state with no
detections becomes SEARCHING with the camera stopped, and a SEARCHING
state 4 seconds after the last detection becomes PATROL with a patrol
pan request at priority PATROL. -/
theorem detection_state_transitions_witness :
    decide_action detDefaultConfig true
        { trackedTarget := some { permanentId := 1, center := (100, 100) },
          lastEventTime := 0, currentMode := "TRACKING (ID:1)" } [] 320 240 1 =
      (("SEARCHING", none),
       { trackedTarget := none, lastEventTime := 0, currentMode := "SEARCHING" },
       [PtzAction.stop]) ∧
    decide_action detDefaultConfig true
        { trackedTarget := none, lastEventTime := 0, currentMode := "SEARCHING" }
        [] 320 240 4 =
      (("PATROL", none),
       { trackedTarget := none, lastEventTime := 0, currentMode := "PATROL" },
       [PtzAction.request (1/5) 0 .PATROL "yolo" "continuous"]) := by
  constructor
  · have := detection_state_transitions.1 detDefaultConfig true
      { trackedTarget := some { permanentId := 1, center := (100, 100) },
        lastEventTime := 0, currentMode := "TRACKING (ID:1)" } 320 240 1 (by decide)
    simpa using this
  · have := detection_state_transitions.2.1 detDefaultConfig true
      { trackedTarget := none, lastEventTime := 0, currentMode := "SEARCHING" }
      320 240 4 (by decide) (by norm_num [detDefaultConfig])
    simpa [detDefaultConfig] using this

/-- Counterexample for C5 as stated: in mode SEARCHING with the last
detection at time 0 and the current time exactly 3 seconds later (so
exactly PATROL_RETURN_DELAY seconds without detections have elapsed,
satisfying "at least 3 seconds"), the code stays in SEARCHING and issues
no patrol request, because it compares with a strict >. -/
theorem detection_state_transitions_counterexample :
    detDefaultConfig.patrolReturnDelay ≤ (3 : ℚ) - 0 ∧
    decide_action detDefaultConfig true
        { trackedTarget := none, lastEventTime := 0, currentMode := "SEARCHING" }
        [] 320 240 3 =
      (("SEARCHING", none),
       { trackedTarget := none, lastEventTime := 0, currentMode := "SEARCHING" }, []) := by
  constructor
  · norm_num [detDefaultConfig]
  · simp only [decide_action]
    rw [if_neg (by decide), if_neg (by norm_num [detDefaultConfig])]

/-- C7 (amended): tracking control law.  With a nonzero frame center the
velocities are pan = (error_x/cx)*KP past the dead zone else 0 and
tilt = -(error_y/cy)*KP past the dead zone else 0, clipped to [-1, 1];
the worked example (frame 640x480, target (500, 240), KP 0.4, dead zone
50) gives pan 0.225 and tilt 0; and for every tracking tick with
detections present the continuous-move request is issued at priority
YOLO_TRACKING with owner "yolo".  (The claim's owner "detection" is
corrected to "yolo", the detection module's name.) -/
theorem tracking_control_law :
    (∀ (cfg : DetConfig) (tx ty : ℚ) (cx cy : ℤ), cx ≠ 0 → cy ≠ 0 →
      pid_output cfg tx ty cx cy =
        (max (-1) (min 1
           (if cfg.deadZone < |tx - (cx : ℚ)| then (tx - (cx : ℚ)) / (cx : ℚ) * cfg.pidKp
            else 0)),
         max (-1) (min 1
           (if cfg.deadZone < |ty - (cy : ℚ)| then -((ty - (cy : ℚ)) / (cy : ℚ)) * cfg.pidKp
            else 0)))) ∧
    pid_output detDefaultConfig 500 240 320 240 = (9/40, 0) ∧
    (∀ (cfg : DetConfig) (s : DetState) (top : DetObj) (rest : List DetObj) (cx cy : ℤ)
      (now : ℚ),
      ∃ target : DetObj,
        (decide_action cfg true s (top :: rest) cx cy now).1.2 = some target ∧
        (decide_action cfg true s (top :: rest) cx cy now).2.2 =
          [PtzAction.request (pid_output cfg target.center.1 target.center.2 cx cy).1
            (pid_output cfg target.center.1 target.center.2 cx cy).2
            .YOLO_TRACKING "yolo" "continuous"]) := by
  refine ⟨?_, ?_, ?_⟩
  · intro cfg tx ty cx cy hx hy
    simp only [pid_output]
    rw [if_neg (by push_neg; exact ⟨hx, hy⟩)]
  · simp only [pid_output, detDefaultConfig]
    norm_num
  · intro cfg s top rest cx cy now
    simp only [decide_action]
    exact ⟨_, rfl, rfl⟩

/-- Witness for C7 at the worked example: frame center (320, 240) is
nonzero and the control formula applies there. -/
theorem tracking_control_law_witness :
    (320 : ℤ) ≠ 0 ∧ (240 : ℤ) ≠ 0 ∧
    pid_output detDefaultConfig 500 240 320 240 =
      (max (-1) (min 1
         (if detDefaultConfig.deadZone < |(500 : ℚ) - ((320 : ℤ) : ℚ)| then
            ((500 : ℚ) - ((320 : ℤ) : ℚ)) / ((320 : ℤ) : ℚ) * detDefaultConfig.pidKp
          else 0)),
       max (-1) (min 1
         (if detDefaultConfig.deadZone < |(240 : ℚ) - ((240 : ℤ) : ℚ)| then
            -(((240 : ℚ) - ((240 : ℤ) : ℚ)) / ((240 : ℤ) : ℚ)) * detDefaultConfig.pidKp
          else 0))) :=
  ⟨by decide, by decide,
   tracking_control_law.1 detDefaultConfig 500 240 320 240 (by decide) (by decide)⟩

/-- Counterexample for C7 as stated: with one detection centered at
(500, 240) in a 640x480 frame, the issued request carries pan 0.225 and
tilt 0 at priority YOLO_TRACKING, but its owner is "yolo" (the module's
name), not "detection". -/
theorem tracking_control_law_counterexample :
    (decide_action detDefaultConfig true
        { trackedTarget := none, lastEventTime := 0, currentMode := "PATROL" }
        [{ permanentId := 1, center := (500, 240) }] 320 240 10).2.2 =
      [PtzAction.request (9/40) 0 .YOLO_TRACKING "yolo" "continuous"] ∧
    "yolo" ≠ "detection" := by
  constructor
  · simp only [decide_action, pid_output, detDefaultConfig]
    norm_num
  · decide

theorem llmStep_emit (s : LLMState) (c : LLMCall)
    (h : ((llmStep s c).2.any (fun e => e.topic == "llm.analysis_complete")) = true) :
    ANALYSIS_COOLDOWN ≤ c.time - s.lastAnalysisTime ∧
    (llmStep s c).1.lastAnalysisTime = c.time := by
  match c with
  | .stt t now => simp [llmStep] at h
  | .procCall ready hf hp llm now =>
    match llm with
    | some a =>
      simp only [llmStep, llmProcess, LLMCall.time] at h ⊢
      split_ifs at h ⊢ with h1 h2 h3 h4 h5 <;>
        first
          | exact ⟨not_lt.1 h2, rfl⟩
          | simp at h
    | none =>
      simp only [llmStep, llmProcess, LLMCall.time] at h
      split_ifs at h <;> simp at h

theorem llmStep_lastTime (s : LLMState) (c : LLMCall) :
    (llmStep s c).1.lastAnalysisTime = s.lastAnalysisTime ∨
    (llmStep s c).1.lastAnalysisTime = c.time := by
  match c with
  | .stt t now =>
    left
    simp only [llmStep, on_stt_text]
    split_ifs <;> rfl
  | .procCall ready hf hp llm now =>
    match llm with
    | some a =>
      simp only [llmStep, llmProcess, LLMCall.time]
      split_ifs <;> first | exact Or.inl rfl | exact Or.inr rfl
    | none =>
      simp only [llmStep, llmProcess, LLMCall.time]
      split_ifs <;> first | exact Or.inl rfl | exact Or.inr rfl

theorem chain_le_drop_middle {a b : ℚ} {l : List ℚ}
    (h : (a :: b :: l).Chain' (· ≤ ·)) : (a :: l).Chain' (· ≤ ·) := by
  rcases l with _ | ⟨c, t⟩
  · simp
  · have h1 : a ≤ b := (List.chain'_cons.1 h).1
    have h2 := (List.chain'_cons.1 h).2
    have h3 : b ≤ c := (List.chain'_cons.1 h2).1
    exact List.chain'_cons.2 ⟨le_trans h1 h3, (List.chain'_cons.1 h2).2⟩

theorem chain_gap_head_mono {a b : ℚ} {l : List ℚ} (hab : a ≤ b)
    (h : (b :: l).Chain' (fun x y => ANALYSIS_COOLDOWN ≤ y - x)) :
    (a :: l).Chain' (fun x y => ANALYSIS_COOLDOWN ≤ y - x) := by
  rcases l with _ | ⟨c, t⟩
  · simp
  · have h1 := (List.chain'_cons.1 h).1
    exact List.chain'_cons.2 ⟨by linarith, (List.chain'_cons.1 h).2⟩

theorem llmProcess_cooldown (s : LLMState) (hf hp : Bool) (llm : Option Analysis)
    (now : ℚ) (h : now - s.lastAnalysisTime < ANALYSIS_COOLDOWN) :
    llmProcess s true hf hp llm now =
      { result := .cooldown s.lastResult s.displayResult, state := s,
        emits := [], llmInvoked := false } := by
  simp only [llmProcess]
  rw [if_neg (by simp), if_pos h]

theorem llm_cooldown_chain : ∀ (calls : List LLMCall) (s : LLMState),
    (s.lastAnalysisTime :: calls.map LLMCall.time).Chain' (· ≤ ·) →
    (s.lastAnalysisTime :: llmEmitTimes s calls).Chain'
      (fun a b => ANALYSIS_COOLDOWN ≤ b - a) := by
  intro calls
  induction calls with
  | nil => intro s _; simp [llmEmitTimes]
  | cons c rest ih =>
    intro s hch
    simp only [List.map_cons] at hch
    have hst : s.lastAnalysisTime ≤ c.time := (List.chain'_cons.1 hch).1
    have hchtail : (c.time :: rest.map LLMCall.time).Chain' (· ≤ ·) :=
      (List.chain'_cons.1 hch).2
    simp only [llmEmitTimes]
    by_cases hem :
        ((llmStep s c).2.any (fun e => e.topic == "llm.analysis_complete")) = true
    · rw [if_pos hem]
      have hc := llmStep_emit s c hem
      have hrec := ih (llmStep s c).1 (by rw [hc.2]; exact hchtail)
      rw [hc.2] at hrec
      exact List.chain'_cons.2 ⟨hc.1, hrec⟩
    · rw [if_neg hem]
      rcases llmStep_lastTime s c with hlt | hlt
      · have hrec := ih (llmStep s c).1 (by
          rw [hlt]
          exact chain_le_drop_middle hch)
        rw [hlt] at hrec
        exact hrec
      · have hrec := ih (llmStep s c).1 (by rw [hlt]; exact hchtail)
        rw [hlt] at hrec
        exact chain_gap_head_mono hst hrec

/-- C2: LLM trigger condition.  llm.analysis_complete is emitted by a
process call only when a non-empty pending STT utterance recorded less
than 30 seconds before the call was present; when no such utterance is
pending (whatever the person-detection flag says) the call emits nothing
and returns a not-analyzed result. -/
theorem llm_trigger_condition :
    (∀ (s : LLMState) (ready hf hp : Bool) (llm : Option Analysis) (now : ℚ),
      ((llmProcess s ready hf hp llm now).emits.any
        (fun e => e.topic == "llm.analysis_complete")) = true →
      freshPending s now = true) ∧
    (∀ (s : LLMState) (ready hf hp : Bool) (llm : Option Analysis) (now : ℚ),
      freshPending s now = false →
      (llmProcess s ready hf hp llm now).emits = [] ∧
      ((llmProcess s ready hf hp llm now).result.isAnalyzed) = false) := by
  constructor
  · intro s ready hf hp llm now h
    simp only [llmProcess] at h
    split_ifs at h with h1 h2 h3 h4 <;> first | exact h4 | simp at h
  · intro s ready hf hp llm now h
    simp only [llmProcess]
    split_ifs with h1 h2 h3 h4 <;> first | exact ⟨rfl, rfl⟩ | simp [h] at h4

/-- Witness for C2: with an empty pending slot (the initial state) at
time 10, a call with a frame and a detected person emits nothing and is
not analyzed. -/
theorem llm_trigger_condition_witness :
    freshPending initialLLMState 10 = false ∧
    (llmProcess initialLLMState true true true
        (some { priority := "HIGH", isEmergency := true, situationType := "fight",
                urgency := "HIGH", summary := "s" }) 10).emits = [] ∧
    ((llmProcess initialLLMState true true true
        (some { priority := "HIGH", isEmergency := true, situationType := "fight",
                urgency := "HIGH", summary := "s" }) 10).result.isAnalyzed) = false := by
  have h : freshPending initialLLMState 10 = false := by
    simp [freshPending, initialLLMState]
  have := llm_trigger_condition.2 initialLLMState true true true
    (some { priority := "HIGH", isEmergency := true, situationType := "fight",
            urgency := "HIGH", summary := "s" }) 10 h
  exact ⟨h, this.1, this.2⟩

/-- C4: LLM cooldown.  A process call less than ANALYSIS_COOLDOWN = 5
seconds after the recorded last analysis time returns the cached last
result with the state unchanged, emits nothing and does not invoke the
LLM; and over any run of handler and process calls with nondecreasing
times, the emission times of llm.analysis_complete are pairwise at least
ANALYSIS_COOLDOWN apart. -/
theorem llm_cooldown :
    (∀ (s : LLMState) (hf hp : Bool) (llm : Option Analysis) (now : ℚ),
      now - s.lastAnalysisTime < ANALYSIS_COOLDOWN →
      llmProcess s true hf hp llm now =
        { result := .cooldown s.lastResult s.displayResult, state := s,
          emits := [], llmInvoked := false }) ∧
    (∀ (s : LLMState) (calls : List LLMCall),
      (s.lastAnalysisTime :: calls.map LLMCall.time).Chain' (· ≤ ·) →
      (llmEmitTimes s calls).Pairwise (fun a b => ANALYSIS_COOLDOWN ≤ b - a)) := by
  constructor
  · intro s hf hp llm now h
    exact llmProcess_cooldown s hf hp llm now h
  · intro s calls hch
    have h := (llm_cooldown_chain calls s hch).tail
    simp only [List.tail_cons] at h
    haveI : IsTrans ℚ (fun a b => ANALYSIS_COOLDOWN ≤ b - a) := by
      constructor
      intro a b c hab hbc
      simp only [ANALYSIS_COOLDOWN] at hab hbc ⊢
      linarith
    exact List.chain'_iff_pairwise.1 h

/-- Witness for C4: starting from a state whose last analysis was at time
100, a call at time 102 returns the cached result unchanged, and in a run
with an stt event at time 100 and process calls at times 102 and 103 no
llm.analysis_complete is emitted at all (so the pairwise gap property
holds vacuously). -/
theorem llm_cooldown_witness :
    llmProcess
        { lastAnalysisTime := 100, lastResult := none, pendingText := some "help",
          pendingTextTime := 99, displayResult := none } true true false none 102 =
      { result := .cooldown none none,
        state := { lastAnalysisTime := 100, lastResult := none,
                   pendingText := some "help", pendingTextTime := 99,
                   displayResult := none },
        emits := [], llmInvoked := false } ∧
    (llmEmitTimes
        { lastAnalysisTime := 100, lastResult := none, pendingText := none,
          pendingTextTime := 0, displayResult := none }
        [.stt "help" 100, .procCall true true false none 102,
         .procCall true true false none 103]).Pairwise
      (fun a b => ANALYSIS_COOLDOWN ≤ b - a) := by
  constructor
  · exact llm_cooldown.1
      { lastAnalysisTime := 100, lastResult := none, pendingText := some "help",
        pendingTextTime := 99, displayResult := none } true false none 102
      (by norm_num [ANALYSIS_COOLDOWN])
  · exact llm_cooldown.2
      { lastAnalysisTime := 100, lastResult := none, pendingText := none,
        pendingTextTime := 0, displayResult := none }
      [.stt "help" 100, .procCall true true false none 102,
       .procCall true true false none 103]
      (by
        simp only [List.map_cons, List.map_nil, LLMCall.time]
        norm_num)

/-- C10: failed LLM analysis is not atomic with the pending slot and the
cooldown.  When a fresh pending utterance is present, the cooldown has
elapsed, the system is ready, a frame is available and the LLM analysis
fails, the call returns analysis_failed with no events, yet the pending
slot is already cleared and the last analysis time is already set to the
call time; consequently a retry call within ANALYSIS_COOLDOWN seconds
returns the cached result without invoking the LLM. -/
theorem llm_failure_not_atomic
    (s : LLMState) (hp : Bool) (now now2 : ℚ)
    (hready : ANALYSIS_COOLDOWN ≤ now - s.lastAnalysisTime)
    (hfresh : freshPending s now = true)
    (hsoon : now2 - now < ANALYSIS_COOLDOWN) :
    (llmProcess s true true hp none now).result = .analysisFailed ∧
    (llmProcess s true true hp none now).emits = [] ∧
    (llmProcess s true true hp none now).llmInvoked = true ∧
    (llmProcess s true true hp none now).state.pendingText = none ∧
    (llmProcess s true true hp none now).state.lastAnalysisTime = now ∧
    (∀ (hf2 hp2 : Bool) (llm2 : Option Analysis),
      (llmProcess (llmProcess s true true hp none now).state true hf2 hp2 llm2 now2).result =
        .cooldown (llmProcess s true true hp none now).state.lastResult
          (llmProcess s true true hp none now).state.displayResult ∧
      (llmProcess (llmProcess s true true hp none now).state true hf2 hp2 llm2 now2).emits =
        [] ∧
      (llmProcess (llmProcess s true true hp none now).state true hf2 hp2 llm2
        now2).llmInvoked = false) := by
  have hout : llmProcess s true true hp none now =
      { result := .analysisFailed,
        state := { s with pendingText := none, lastAnalysisTime := now },
        emits := [], llmInvoked := true } := by
    simp only [llmProcess]
    rw [if_neg (by simp), if_neg (by linarith), if_neg (by simp), if_pos hfresh]
  rw [hout]
  refine ⟨rfl, rfl, rfl, rfl, rfl, ?_⟩
  intro hf2 hp2 llm2
  have := llmProcess_cooldown { s with pendingText := none, lastAnalysisTime := now }
    hf2 hp2 llm2 now2 (by simpa using hsoon)
  rw [this]
  exact ⟨rfl, rfl, rfl⟩

/-- Witness for C10: pending utterance "help" recorded at time 99, call
at time 100 (cooldown long elapsed) with a failing LLM, retry at time
103. -/
theorem llm_failure_not_atomic_witness :
    ANALYSIS_COOLDOWN ≤ (100 : ℚ) - 0 ∧
    freshPending
        { lastAnalysisTime := 0, lastResult := none, pendingText := some "help",
          pendingTextTime := 99, displayResult := none } 100 = true ∧
    (103 : ℚ) - 100 < ANALYSIS_COOLDOWN ∧
    ((llmProcess
        { lastAnalysisTime := 0, lastResult := none, pendingText := some "help",
          pendingTextTime := 99, displayResult := none } true true false none 100).result =
      .analysisFailed ∧
     (llmProcess
        { lastAnalysisTime := 0, lastResult := none, pendingText := some "help",
          pendingTextTime := 99, displayResult := none } true true false none
        100).state.pendingText = none ∧
     (llmProcess
        { lastAnalysisTime := 0, lastResult := none, pendingText := some "help",
          pendingTextTime := 99, displayResult := none } true true false none
        100).state.lastAnalysisTime = 100) := by
  have h1 : ANALYSIS_COOLDOWN ≤ (100 : ℚ) - 0 := by norm_num [ANALYSIS_COOLDOWN]
  have h2 : freshPending
      { lastAnalysisTime := 0, lastResult := none, pendingText := some "help",
        pendingTextTime := 99, displayResult := none } 100 = true := by
    simp [freshPending]
    exact ⟨by decide, by norm_num⟩
  have h3 : (103 : ℚ) - 100 < ANALYSIS_COOLDOWN := by norm_num [ANALYSIS_COOLDOWN]
  have hmain := llm_failure_not_atomic
    { lastAnalysisTime := 0, lastResult := none, pendingText := some "help",
      pendingTextTime := 99, displayResult := none } false 100 103 h1 h2 h3
  exact ⟨h1, h2, h3, hmain.1, hmain.2.2.2.1, hmain.2.2.2.2.1⟩

theorem reporterRun_posts_eq (enabled : Bool) (url : String) (s : ReporterState)
    (events : List REvent) (h1 : enabled = true) (h2 : url.isEmpty = false) :
    (reporterRun enabled url s events).2 =
      (events.filter (fun e => reporterTopics.contains e.topic)).map
        (fun e => { topic := e.topic, time := e.time }) := by
  induction events generalizing s with
  | nil => simp [reporterRun]
  | cons e rest ih =>
    simp only [reporterRun, reporterHandle]
    by_cases hc : reporterTopics.contains e.topic = true
    · rw [if_pos hc, if_pos ⟨h1, by rw [h2]; exact Bool.false_ne_true⟩]
      have hmem : e.topic ∈ reporterTopics := by simpa using hc
      by_cases hk : e.httpOk = true
      · rw [if_pos hk]
        simp [List.filter_cons, hmem, ih]
      · rw [if_neg hk]
        simp [List.filter_cons, hmem, ih]
    · have hmem : e.topic ∉ reporterTopics := by simpa using hc
      rw [if_neg hc]
      simp [List.filter_cons, hmem, ih]

/-- C3 (amended): the reporter has no per-topic rate limit.  With the
module enabled and a server URL configured, every delivered event on one
of the four subscribed topics triggers exactly one immediate HTTP POST:
the POST sequence is the subscribed-event sequence itself, whatever the
event times are, so consecutive same-topic POSTs can be arbitrarily
close. -/
theorem reporter_no_rate_limit (enabled : Bool) (url : String) (s : ReporterState)
    (events : List REvent) (h1 : enabled = true) (h2 : url.isEmpty = false) :
    (reporterRun enabled url s events).2 =
      (events.filter (fun e => reporterTopics.contains e.topic)).map
        (fun e => { topic := e.topic, time := e.time }) :=
  reporterRun_posts_eq enabled url s events h1 h2

/-- Witness for C3 (amended) at concrete inputs: two mic.doa_detected
events 0.1 seconds apart are both POSTed. -/
theorem reporter_no_rate_limit_witness :
    (true = true ∧ ("http://server" : String).isEmpty = false) ∧
    (reporterRun true "http://server" { sendCount := 0, failCount := 0 }
        [{ topic := "mic.doa_detected", time := 0, httpOk := true },
         { topic := "mic.doa_detected", time := 1/10, httpOk := true }]).2 =
      (([{ topic := "mic.doa_detected", time := 0, httpOk := true },
          { topic := "mic.doa_detected", time := 1/10, httpOk := true }] :
            List REvent).filter
          (fun e => reporterTopics.contains e.topic)).map
        (fun e => { topic := e.topic, time := e.time }) :=
  ⟨⟨rfl, by decide⟩,
   reporter_no_rate_limit true "http://server" { sendCount := 0, failCount := 0 }
     [{ topic := "mic.doa_detected", time := 0, httpOk := true },
      { topic := "mic.doa_detected", time := 1/10, httpOk := true }] rfl (by decide)⟩

/-- Counterexample for C3 as stated: two consecutive outgoing POSTs for
topic mic.doa_detected are 0.1 seconds apart, below the claimed 0.2
second cooldown for that topic — the code keeps no per-topic timing
state at all. -/
theorem reporter_rate_limit_counterexample :
    (reporterRun true "http://server" { sendCount := 0, failCount := 0 }
        [{ topic := "mic.doa_detected", time := 0, httpOk := true },
         { topic := "mic.doa_detected", time := 1/10, httpOk := true }]).2 =
      [{ topic := "mic.doa_detected", time := 0 },
       { topic := "mic.doa_detected", time := 1/10 }] ∧
    ¬((1 : ℚ)/10 - 0 ≥ 1/5) := by
  constructor
  · rw [reporterRun_posts_eq true "http://server" { sendCount := 0, failCount := 0 }
      [{ topic := "mic.doa_detected", time := 0, httpOk := true },
       { topic := "mic.doa_detected", time := 1/10, httpOk := true }] rfl (by decide)]
    simp [reporterTopics]
  · norm_num

theorem alookup_append_left {α : Type} (m m2 : List (ℤ × α)) (k : ℤ) (v : α)
    (h : alookup m k = some v) : alookup (m ++ m2) k = some v := by
  induction m with
  | nil => simp [alookup] at h
  | cons e t ih =>
    simp only [alookup, List.cons_append] at h ⊢
    split_ifs at h ⊢ with he
    · exact h
    · exact ih h

theorem alookup_none_not_mem {α : Type} (m : List (ℤ × α)) (k : ℤ)
    (h : alookup m k = none) : k ∉ m.map Prod.fst := by
  induction m with
  | nil => simp
  | cons e t ih =>
    simp only [alookup] at h
    by_cases he : e.1 = k
    · rw [if_pos he] at h
      simp at h
    · rw [if_neg he] at h
      simp only [List.map_cons, List.mem_cons]
      push_neg
      exact ⟨fun hk => he hk.symm, ih h⟩

theorem alookup_filter_seen {α : Type} (m : List (ℤ × α)) (seen : List ℤ) (k : ℤ)
    (h : seen.contains k = true) :
    alookup (m.filter (fun q => seen.contains q.1)) k = alookup m k := by
  induction m with
  | nil => simp
  | cons e t ih =>
    by_cases he : e.1 = k
    · have hkeep : (seen.contains e.1) = true := by rw [he]; exact h
      simp only [List.filter_cons, hkeep, if_pos]
      simp only [alookup, he, if_pos]
    · by_cases hkeep : (seen.contains e.1) = true
      · simp only [List.filter_cons, hkeep, if_pos]
        simp only [alookup, he, if_neg, ih]
      · simp only [List.filter_cons, hkeep]
        simp only [Bool.false_eq_true, if_false, alookup, he, if_neg, ih]

theorem setHist_map_fst (ko : List (ℤ × ℚ)) (p : ℤ) (h : ℚ) :
    (setHist ko p h).map Prod.fst = ko.map Prod.fst := by
  simp only [setHist, List.map_map]
  apply List.map_congr_left
  intro q _
  simp only [Function.comp]
  split_ifs <;> rfl

theorem reid_fold_cases (corr : ℚ → ℚ → ℚ) (m : List (ℤ × ℤ)) (h : ℚ) :
    ∀ (l : List (ℤ × ℚ)) (acc : ℚ × ℤ),
      (l.foldl (fun acc q =>
          if q.1 ∈ mappedPerms m then acc
          else if acc.1 < corr q.2 h then (corr q.2 h, q.1) else acc) acc) = acc ∨
      ((l.foldl (fun acc q =>
          if q.1 ∈ mappedPerms m then acc
          else if acc.1 < corr q.2 h then (corr q.2 h, q.1) else acc) acc).2 ∈
          l.map Prod.fst ∧
       (l.foldl (fun acc q =>
          if q.1 ∈ mappedPerms m then acc
          else if acc.1 < corr q.2 h then (corr q.2 h, q.1) else acc) acc).2 ∉
          mappedPerms m) := by
  intro l
  induction l with
  | nil => intro acc; left; rfl
  | cons q t ih =>
    intro acc
    simp only [List.foldl_cons]
    by_cases h1 : q.1 ∈ mappedPerms m
    · rw [if_pos h1]
      rcases ih acc with h2 | h2
      · left; exact h2
      · right
        exact ⟨List.mem_cons_of_mem _ h2.1, h2.2⟩
    · rw [if_neg h1]
      by_cases h2 : acc.1 < corr q.2 h
      · rw [if_pos h2]
        rcases ih (corr q.2 h, q.1) with h3 | h3
        · right
          rw [h3]
          exact ⟨List.mem_cons_self _ _, h1⟩
        · right
          exact ⟨List.mem_cons_of_mem _ h3.1, h3.2⟩
      · rw [if_neg h2]
        rcases ih acc with h3 | h3
        · left; exact h3
        · right
          exact ⟨List.mem_cons_of_mem _ h3.1, h3.2⟩

theorem bestMatch_cases (corr : ℚ → ℚ → ℚ) (s : ReIDState) (h : ℚ)
    (hgt : (-1 : ℚ) < (bestMatch corr s h).1) :
    (bestMatch corr s h).2 ∈ s.knownObjects.map Prod.fst ∧
    (bestMatch corr s h).2 ∉ mappedPerms s.idMap := by
  rcases reid_fold_cases corr s.idMap h s.knownObjects (-1, -1) with h1 | h1
  · exfalso
    have hbm : bestMatch corr s h = ((-1 : ℚ), (-1 : ℤ)) := h1
    rw [hbm] at hgt
    simp at hgt
  · exact h1

theorem alookup_append_right {α : Type} (m m2 : List (ℤ × α)) (k : ℤ)
    (h : alookup m k = none) : alookup (m ++ m2) k = alookup m2 k := by
  induction m with
  | nil => simp
  | cons e t ih =>
    simp only [alookup] at h
    by_cases he : e.1 = k
    · rw [if_pos he] at h; simp at h
    · rw [if_neg he] at h
      simp only [List.cons_append, alookup, if_neg he]
      exact ih h

theorem reidStep_inv (corr : ℚ → ℚ → ℚ) (s : ReIDState) (o : TrackedObj)
    (hs : ReIDInv s) : ReIDInv (reidStep corr s o).1 := by
  obtain ⟨n1, n2, n3, n4, n5, n6⟩ := hs
  match o with
  | ⟨y, none⟩ => exact ⟨n1, n2, n3, n4, n5, n6⟩
  | ⟨y, some h⟩ =>
    simp only [reidStep]
    cases hl : alookup s.idMap y with
    | some p =>
      refine ⟨n1, n2, n3, ?_, ?_, n6⟩
      · rw [setHist_map_fst]; exact n4
      · rw [setHist_map_fst]; exact n5
    | none =>
      have hy : y ∉ s.idMap.map Prod.fst := alookup_none_not_mem _ _ hl
      by_cases hb : s.threshold < (bestMatch corr s h).1
      · rw [if_pos hb]
        have hbc := bestMatch_cases corr s h (lt_of_le_of_lt n6 hb)
        refine ⟨?_, ?_, ?_, ?_, ?_, n6⟩
        · simp only [List.map_append, List.map_cons, List.map_nil]
          rw [List.nodup_append]
          exact ⟨n1, List.nodup_singleton _, by simpa using hy⟩
        · simp only [List.map_append, List.map_cons, List.map_nil]
          rw [List.nodup_append]
          refine ⟨n2, List.nodup_singleton _, ?_⟩
          rw [List.disjoint_singleton]
          exact hbc.2
        · intro p hp
          simp only [List.map_append, List.map_cons, List.map_nil,
            List.mem_append, List.mem_singleton] at hp
          rcases hp with hp | hp
          · exact n3 p hp
          · rw [hp]; exact n5 _ hbc.1
        · rw [setHist_map_fst]; exact n4
        · rw [setHist_map_fst]; exact n5
      · rw [if_neg hb]
        refine ⟨?_, ?_, ?_, ?_, ?_, n6⟩
        · simp only [List.map_append, List.map_cons, List.map_nil]
          rw [List.nodup_append]
          exact ⟨n1, List.nodup_singleton _, by simpa using hy⟩
        · simp only [List.map_append, List.map_cons, List.map_nil]
          rw [List.nodup_append]
          refine ⟨n2, List.nodup_singleton _, ?_⟩
          simp only [List.disjoint_singleton]
          intro hmem
          exact absurd (n3 _ hmem) (lt_irrefl _)
        · intro p hp
          simp only [List.map_append, List.map_cons, List.map_nil,
            List.mem_append, List.mem_singleton] at hp
          rcases hp with hp | hp
          · exact lt_trans (n3 p hp) (lt_add_one _)
          · rw [hp]; exact lt_add_one _
        · simp only [List.map_append, List.map_cons, List.map_nil]
          rw [List.nodup_append]
          refine ⟨n4, List.nodup_singleton _, ?_⟩
          simp only [List.disjoint_singleton]
          intro hmem
          exact absurd (n5 _ hmem) (lt_irrefl _)
        · intro p hp
          simp only [List.map_append, List.map_cons, List.map_nil,
            List.mem_append, List.mem_singleton] at hp
          rcases hp with hp | hp
          · exact lt_trans (n5 p hp) (lt_add_one _)
          · rw [hp]; exact lt_add_one _

theorem reidStep_alookup (corr : ℚ → ℚ → ℚ) (s : ReIDState) (o : TrackedObj)
    (y : ℤ) (p : ℤ) (h : alookup s.idMap y = some p) :
    alookup (reidStep corr s o).1.idMap y = some p := by
  match o with
  | ⟨z, none⟩ => exact h
  | ⟨z, some hh⟩ =>
    simp only [reidStep]
    cases hz : alookup s.idMap z with
    | some q => exact h
    | none =>
      by_cases hb : s.threshold < (bestMatch corr s hh).1
      · rw [if_pos hb]
        exact alookup_append_left _ _ _ _ h
      · rw [if_neg hb]
        exact alookup_append_left _ _ _ _ h

theorem foldl_reid_inv (corr : ℚ → ℚ → ℚ) (objs : List TrackedObj) :
    ∀ (acc : ReIDState × List (TrackedObj × ℤ)), ReIDInv acc.1 →
      ReIDInv (objs.foldl (reidFoldStep corr) acc).1 := by
  induction objs with
  | nil => intro acc h; exact h
  | cons o rest ih =>
    intro acc h
    exact ih (reidFoldStep corr acc o) (reidStep_inv corr acc.1 o h)

theorem foldl_reid_alookup (corr : ℚ → ℚ → ℚ) (objs : List TrackedObj) :
    ∀ (acc : ReIDState × List (TrackedObj × ℤ)) (y p : ℤ),
      alookup acc.1.idMap y = some p →
      alookup (objs.foldl (reidFoldStep corr) acc).1.idMap y = some p := by
  induction objs with
  | nil => intro acc y p h; exact h
  | cons o rest ih =>
    intro acc y p h
    exact ih (reidFoldStep corr acc o) y p (reidStep_alookup corr acc.1 o y p h)

/-- C6 (amended): re-identification stability.  (a) A tracker id that is
mapped and appears among the frame's tracker ids keeps its permanent id.
(b) update_ids preserves the manager's invariant, which contains the
injectivity of the tracker-to-permanent map (idMap values are pairwise
distinct) together with unique keys and the monotone-counter bound.
(c) For a re-entering tracker id whose fingerprint's best correlation
against the stored fingerprints not currently mapped is strictly above
the 0.75 threshold, the tracker recovers that stored permanent id.  (The
claim's "at least 0.75" is corrected to "strictly above": the code
compares best_score with a strict >.) -/
theorem reid_stability :
    (∀ (corr : ℚ → ℚ → ℚ) (s : ReIDState) (objs : List TrackedObj) (y p : ℤ),
      alookup s.idMap y = some p → (∃ ob ∈ objs, ob.yoloId = y) →
      alookup (update_ids corr s objs).1.idMap y = some p) ∧
    (∀ (corr : ℚ → ℚ → ℚ) (s : ReIDState) (objs : List TrackedObj),
      ReIDInv s → ReIDInv (update_ids corr s objs).1) ∧
    (∀ (corr : ℚ → ℚ → ℚ) (s : ReIDState) (y : ℤ) (h sc : ℚ) (p : ℤ),
      alookup s.idMap y = none → bestMatch corr s h = (sc, p) → s.threshold < sc →
      (update_ids corr s [{ yoloId := y, hist := some h }]).2 =
        [({ yoloId := y, hist := some h }, p)] ∧
      alookup (update_ids corr s [{ yoloId := y, hist := some h }]).1.idMap y =
        some p) := by
  refine ⟨?_, ?_, ?_⟩
  · intro corr s objs y p h hin
    simp only [update_ids]
    have hfold := foldl_reid_alookup corr objs (s, []) y p h
    have hymem : y ∈ objs.map TrackedObj.yoloId := by
      obtain ⟨ob, hob, hoy⟩ := hin
      exact List.mem_map.2 ⟨ob, hob, hoy⟩
    have hseen : ((objs.map TrackedObj.yoloId).contains y) = true := by
      simpa using hymem
    rw [alookup_filter_seen _ _ _ hseen]
    exact hfold
  · intro corr s objs hs
    simp only [update_ids]
    have hfold := foldl_reid_inv corr objs (s, []) hs
    obtain ⟨n1, n2, n3, n4, n5, n6⟩ := hfold
    have hsub :
        List.Sublist
          ((objs.foldl (reidFoldStep corr) (s, [])).1.idMap.filter
            (fun q => ((objs.map TrackedObj.yoloId).contains q.1)))
          (objs.foldl (reidFoldStep corr) (s, [])).1.idMap :=
      List.filter_sublist _
    refine ⟨?_, ?_, ?_, n4, n5, n6⟩
    · exact n1.sublist (hsub.map Prod.fst)
    · exact n2.sublist (hsub.map Prod.snd)
    · intro p hp
      exact n3 p ((hsub.map Prod.snd).subset hp)
  · intro corr s y h sc p hl hbm hth
    have hstep : reidStep corr s { yoloId := y, hist := some h } =
        ({ s with idMap := s.idMap ++ [(y, p)],
                  knownObjects := setHist s.knownObjects p h }, some p) := by
      simp only [reidStep, hl]
      rw [hbm]
      rw [if_pos hth]
    constructor
    · simp only [update_ids, List.foldl_cons, List.foldl_nil, reidFoldStep, hstep]
      rfl
    · simp only [update_ids, List.foldl_cons, List.foldl_nil, reidFoldStep, hstep]
      rw [alookup_filter_seen _ _ _ (by simp)]
      rw [alookup_append_right _ _ _ hl]
      simp [alookup]

/-- Witness for C6 at concrete inputs: (a) tracker 7 mapped to permanent
id 1 keeps it across a frame where it is seen; (b) the invariant holds
after the frame; (c) an unmapped tracker whose fingerprint correlates
0.9 (strictly above the 0.75 threshold) with the stored fingerprint of
the unmapped permanent id 1 recovers id 1. -/
theorem reid_stability_witness :
    alookup (update_ids (fun _ _ => (0 : ℚ))
        { knownObjects := [(1, 5)], idMap := [(7, 1)], nextUid := 2, threshold := 3/4 }
        [{ yoloId := 7, hist := some 5 }]).1.idMap 7 = some 1 ∧
    ReIDInv (update_ids (fun _ _ => (0 : ℚ))
        { knownObjects := [(1, 5)], idMap := [(7, 1)], nextUid := 2, threshold := 3/4 }
        [{ yoloId := 7, hist := some 5 }]).1 ∧
    ((update_ids (fun _ _ => (9/10 : ℚ))
        { knownObjects := [(1, 5)], idMap := [], nextUid := 2, threshold := 3/4 }
        [{ yoloId := 7, hist := some 5 }]).2 =
      [({ yoloId := 7, hist := some 5 }, 1)] ∧
     alookup (update_ids (fun _ _ => (9/10 : ℚ))
        { knownObjects := [(1, 5)], idMap := [], nextUid := 2, threshold := 3/4 }
        [{ yoloId := 7, hist := some 5 }]).1.idMap 7 = some 1) := by
  refine ⟨?_, ?_, ?_⟩
  · exact reid_stability.1 (fun _ _ => 0)
      { knownObjects := [(1, 5)], idMap := [(7, 1)], nextUid := 2, threshold := 3/4 }
      [{ yoloId := 7, hist := some 5 }] 7 1 (by decide)
      ⟨{ yoloId := 7, hist := some 5 }, by simp, rfl⟩
  · exact reid_stability.2.1 (fun _ _ => 0)
      { knownObjects := [(1, 5)], idMap := [(7, 1)], nextUid := 2, threshold := 3/4 }
      [{ yoloId := 7, hist := some 5 }]
      ⟨by decide, by decide, by decide, by decide, by decide, by norm_num⟩
  · exact reid_stability.2.2 (fun _ _ => 9/10)
      { knownObjects := [(1, 5)], idMap := [], nextUid := 2, threshold := 3/4 }
      7 5 (9/10) 1 (by decide)
      (by
        show List.foldl _ _ _ = _
        simp only [List.foldl_cons, List.foldl_nil, mappedPerms]
        norm_num)
      (by norm_num)

/-- Counterexample for C6 as stated: an unmapped tracker whose
fingerprint correlates exactly 0.75 (so at least 0.75) with the stored
fingerprint of the only unmapped permanent id 1 does not recover id 1
but is allocated the fresh id 2, because the code requires a strict
best_score > threshold. -/
theorem reid_stability_counterexample :
    (3/4 : ℚ) ≥ 3/4 ∧
    (fun (_ _ : ℚ) => (3/4 : ℚ)) 5 5 = 3/4 ∧
    (update_ids (fun _ _ => (3/4 : ℚ))
        { knownObjects := [(1, 5)], idMap := [], nextUid := 2, threshold := 3/4 }
        [{ yoloId := 7, hist := some 5 }]).2 =
      [({ yoloId := 7, hist := some 5 }, 2)] ∧
    alookup (update_ids (fun _ _ => (3/4 : ℚ))
        { knownObjects := [(1, 5)], idMap := [], nextUid := 2, threshold := 3/4 }
        [{ yoloId := 7, hist := some 5 }]).1.idMap 7 = some 2 ∧
    (2 : ℤ) ≠ 1 := by
  have hbm : bestMatch (fun _ _ => (3/4 : ℚ))
      { knownObjects := [(1, 5)], idMap := [], nextUid := 2, threshold := 3/4 } 5 =
      (3/4, 1) := by
    show List.foldl _ _ _ = _
    simp only [List.foldl_cons, List.foldl_nil, mappedPerms]
    norm_num
  have hstep : reidStep (fun _ _ => (3/4 : ℚ))
      { knownObjects := [(1, 5)], idMap := [], nextUid := 2, threshold := 3/4 }
      { yoloId := 7, hist := some 5 } =
      ({ knownObjects := [(1, 5), (2, 5)], idMap := [(7, 2)], nextUid := 3,
         threshold := 3/4 }, some 2) := by
    simp only [reidStep]
    rw [show alookup
        ({ knownObjects := [(1, 5)], idMap := [], nextUid := 2,
           threshold := 3/4 } : ReIDState).idMap 7 = none from rfl]
    rw [hbm]
    rw [if_neg (by norm_num)]
    rfl
  refine ⟨by norm_num, rfl, ?_, ?_, by decide⟩
  · simp only [update_ids, List.foldl_cons, List.foldl_nil, reidFoldStep, hstep,
      List.nil_append]
  · simp only [update_ids, List.foldl_cons, List.foldl_nil, reidFoldStep, hstep]
    decide

end KnuMM
